import Mathlib

/-!
Verification of the keychain block-validation engine of the duniter node
(src/app/service/KeychainService.js) against its natural-language
specification.  The JavaScript service is shallowly embedded: persisted
stores become a `State` record, every callback waterfall becomes a pure
function returning `Except String`, JS numbers become `Nat`/`Int` with the
source's arithmetic made explicit, and the OpenPGP / persistence libraries
that live outside src/ are modelled from the specification (each such
definition carries a doc comment saying so).
-/

namespace Duniter

/-- Configuration values consumed by KeychainService (conf.* in the source). -/
structure Conf where
  sigQty : Nat
  sigValidity : Int
  powZeroMin : Nat
  powPeriod : Nat
  powPeriodC : Bool
  tsInterval : Int
  currency : String
  deriving Repr, DecidableEq

/-- Membership declaration carried inside a keychange
(the pair stored at kc.membership in the source: the inline text and its signature). -/
structure InlineMs where
  membership : String
  signature : String
  deriving Repr, DecidableEq

/-- One keychange record of a keyblock (type N, U, L or B). Absent packet
fields are the empty string, matching the falsy checks of the source. -/
structure Keychange where
  type : String
  fingerprint : String
  keypackets : String
  certpackets : String
  membership : Option InlineMs
  deriving Repr, DecidableEq

/-- A keyblock, the unit of consensus (the KeyBlock entity of the source). -/
structure KeyBlockRec where
  number : Nat
  currency : String
  previousHash : String
  previousIssuer : String
  timestamp : Int
  nonce : Nat
  issuer : String
  membersRoot : String
  membersCount : Nat
  membersChanges : List String
  keysChanges : List Keychange
  signature : String
  hash : String
  deriving Repr, DecidableEq

/-- A certification link row of the Link store. -/
structure LinkRec where
  source : String
  target : String
  timestamp : Int
  obsolete : Bool
  deriving Repr, DecidableEq

/-- A per-fingerprint row of the Key store (member / kick flags, distanced cache). -/
structure KeyRec where
  fingerprint : String
  member : Bool
  kick : Bool
  distanced : List String
  deriving Repr, DecidableEq

/-- A trusted-key row (authoritative OpenPGP material of a member). -/
structure TrustedKeyRec where
  fingerprint : String
  keyID : String
  uid : String
  packets : String
  deriving Repr, DecidableEq

/-- A pending membership request (the Membership entity). -/
structure MembershipRec where
  issuer : String
  membership : String
  userid : String
  date : Int
  hash : String
  eligible : Bool
  deriving Repr, DecidableEq

/-- A stored public key (the PublicKey entity), as consumed by hasEligiblePubkey. -/
structure PubkeyRec where
  fingerprint : String
  keychain : Bool
  raw : String
  deriving Repr, DecidableEq

/-- The persisted stores the service reads and writes: block store, key index,
link store, trusted-key table, membership pool and public-key store. -/
structure State where
  blocks : List KeyBlockRec
  keys : List KeyRec
  links : List LinkRec
  trustedKeys : List TrustedKeyRec
  memberships : List MembershipRec
  pubkeys : List PubkeyRec
  deriving Repr, DecidableEq

/-- Decoded OpenPGP key capabilities used by the keychange validator
(keyhelper wrapped key). Modelled from the spec: the OpenPGP library is
outside src/, only the queried capabilities are kept. -/
structure PgpKey where
  hasValidUdid2 : Bool
  userID : String
  newcomerEncoding : String
  deriving Repr, DecidableEq

/-- Parsed membership produced by Membership.fromInline (parser outside src/).
Modelled from the spec: a membership declaration names its issuer fingerprint,
the IN/OUT direction and the user id. -/
structure ParsedMs where
  membership : String
  userid : String
  fingerprint : String
  deriving Repr, DecidableEq

/-- Oracle bundling the cryptographic / codec library calls the service makes
(jpgp, keyhelper, openpgp, base64, unix2dos -- all outside src/). Modelled
from the spec section on the Signature and Key Oracle. -/
structure Oracle where
  fromEncodedPackets : String → PgpKey
  fromInline : String → String → ParsedMs
  checkCertifications : String → String → List String → Except String (List String)
  verifyMembershipSig : PgpKey → ParsedMs → String → Bool
  hasOnlySubkeyMaterial : String → Bool
  hasOnlyCertificationMaterial : String → Bool
  hasValidUdid2 : String → Bool
  trustedPackets : String → String
  mergeTrusted : String → String → String → String
  unix2dosTrim : String → String

/-- Oracle instance with inert placeholder capabilities, used to evaluate the
service on concrete blocks that carry no keychanges. -/
def trivialOracle : Oracle where
  fromEncodedPackets := fun _ => { hasValidUdid2 := false, userID := "", newcomerEncoding := "" }
  fromInline := fun _ _ => { membership := "", userid := "", fingerprint := "" }
  checkCertifications := fun _ _ _ => Except.ok []
  verifyMembershipSig := fun _ _ _ => false
  hasOnlySubkeyMaterial := fun _ => false
  hasOnlyCertificationMaterial := fun _ => false
  hasValidUdid2 := fun _ => false
  trustedPackets := fun _ => ""
  mergeTrusted := fun _ _ _ => ""
  unix2dosTrim := fun s => s

/-- New links extracted from a block: target fingerprint to list of certifier
fingerprints, as the source builds in checkKeychanges. -/
def NewLinks : Type := List (String × List String)

instance : DecidableEq NewLinks := by
  unfold NewLinks
  infer_instance

/-- Lookup of newLinks[target], the empty list when the key is absent
(the source guards with newLinks[target] && newLinks[target].length). -/
def nlGet (nl : NewLinks) (target : String) : List String :=
  (List.lookup target nl).getD []

/-- Assignment newLinks[fingerprint] = certifiers (overwrite semantics). -/
def nlSet (nl : NewLinks) (target : String) (sources : List String) : NewLinks :=
  match nl with
  | [] => [(target, sources)]
  | p :: rest => if p.1 == target then (target, sources) :: rest else p :: nlSet rest target sources

/-- First-character test (the leading-sign regexp match and the mc[0]
comparison of the source). -/
def firstCharIs (c : Char) (s : String) : Bool :=
  match s.data with
  | [] => false
  | d :: _ => d == c

/-- Number of leading zero characters of a hex digest, the quantity the
proof-of-work regular expressions of the source measure. -/
def countLeadingZerosList : List Char → Nat
  | [] => 0
  | c :: rest => if c = '0' then countLeadingZerosList rest + 1 else 0

/-- Leading zero count of a string (hash.match of the leading-zero regexp). -/
def countLeadingZeros (s : String) : Nat := countLeadingZerosList s.data

/-- Modelled from the spec: KeyBlock.current of the block store returns the
tip, the stored block of highest number. -/
def maxByNumber : List KeyBlockRec → Option KeyBlockRec
  | [] => none
  | b :: rest =>
    match maxByNumber rest with
    | none => some b
    | some c => if b.number > c.number then some b else some c

/-- Current tip of the chain (KeyBlock.current). -/
def currentBlock (s : State) : Option KeyBlockRec := maxByNumber s.blocks

/-- Modelled from the spec: KeyBlock.lastOfIssuer returns the issuer's most
recent stored block. -/
def lastOfIssuer (s : State) (issuer : String) : Option KeyBlockRec :=
  maxByNumber (s.blocks.filter (fun b => b.issuer == issuer))

/-- Modelled from the spec: Key.isMember of the member index. -/
def isMember (s : State) (fpr : String) : Bool :=
  s.keys.any (fun k => k.fingerprint == fpr && k.member)

/-- Modelled from the spec: Key.getMembers of the member index. -/
def getMembers (s : State) : List KeyRec :=
  s.keys.filter (fun k => k.member)

/-- Modelled from the spec: Key.getToBeKicked returns the keys flagged kick. -/
def getToBeKicked (s : State) : List KeyRec :=
  s.keys.filter (fun k => k.kick)

/-- Modelled from the spec: Link.currentValidLinks, the non-obsolete stored
links pointing at the target. -/
def currentValidLinks (s : State) (target : String) : List LinkRec :=
  s.links.filter (fun l => l.target == target && !l.obsolete)

/-- Chain-linkage test of submitKeyBlock (the five consecutive tests on the
current tip at the top of the second waterfall step). -/
def chainCheck (current : Option KeyBlockRec) (b : KeyBlockRec) : Except String Unit :=
  match current with
  | none => if b.number > 0 then Except.error "Requires root block first" else Except.ok ()
  | some c =>
    if b.number ≤ c.number then Except.error "Too late for this block"
    else if b.number > c.number + 1 then Except.error "Too early for this block"
    else if b.number = c.number + 1 ∧ b.previousHash ≠ c.hash then
      Except.error "PreviousHash does not target current block"
    else if b.number = c.number + 1 ∧ b.previousIssuer ≠ c.issuer then
      Except.error "PreviousIssuer does not target current block"
    else Except.ok ()

/-- Sequential iteration with early error exit (async.forEachSeries over unit
tasks, and async.forEach whose first failure aborts the block). -/
def forEachSeries (f : α → Except String Unit) : List α → Except String Unit
  | [] => Except.ok ()
  | x :: xs =>
    match f x with
    | Except.error e => Except.error e
    | Except.ok _ => forEachSeries f xs

/-- Timestamp window test of submitKeyBlock (local-clock comparison). -/
def tsCheck (conf : Conf) (checkTs : Bool) (now : Int) (b : KeyBlockRec) : Except String Unit :=
  if checkTs ∧ ((b.timestamp - now).natAbs : Int) > conf.tsInterval then
    Except.error "Timestamp does not match this node's time"
  else Except.ok ()

/-- Per-issuer difficulty of the source's getTrialLevel. The nbPeriodsToWait
divisor keeps the JS float semantics made exact: Math.floor of the quotient is
integer floor division, and a zero divisor makes the waited periods infinite
(JS Infinity), collapsing the required zeros to powZeroMin. A last block whose
hash carries no leading zero makes hash.match of the zero regexp null and the
source throws reading its first element. -/
def getTrialLevel (conf : Conf) (s : State) (issuer : String) (nextBlockNumber : Nat)
    (currentWoTsize : Nat) : Except String Int :=
  match lastOfIssuer s issuer with
  | none => Except.ok (conf.powZeroMin : Int)
  | some last =>
    let lz := countLeadingZeros last.hash
    if lz = 0 then Except.error "TypeError: cannot read property 0 of null"
    else
      let lastBlockPenality : Int := (lz : Int) - (conf.powZeroMin : Int) + 1
      let nbPeriodsToWait : Nat :=
        if conf.powPeriodC then conf.powPeriod else conf.powPeriod * currentWoTsize / 100
      if nbPeriodsToWait = 0 then Except.ok (conf.powZeroMin : Int)
      else
        let nbWaitedPeriods : Int :=
          Int.fdiv ((nextBlockNumber : Int) - (last.number : Int)) (nbPeriodsToWait : Int)
        Except.ok (max (conf.powZeroMin : Int)
          ((conf.powZeroMin : Int) + lastBlockPenality - nbWaitedPeriods))

/-- Member count handed to getTrialLevel, the tip's membersCount or zero
without a tip (the conditional at the checkProofOfWork call site). -/
def wotSizeOf : Option KeyBlockRec → Nat
  | some c => c.membersCount
  | none => 0

/-- Proof-of-work test of the source's checkProofOfWork: a floor of powZeroMin
zeros, then the issuer-specific trial level. The source interpolates the given
and required zero counts into the failure message. -/
def checkProofOfWork (conf : Conf) (s : State) (current : Option KeyBlockRec)
    (b : KeyBlockRec) : Except String Unit :=
  if countLeadingZeros b.hash < conf.powZeroMin then Except.error "Not a proof-of-work"
  else
    match getTrialLevel conf s b.issuer b.number (wotSizeOf current) with
    | Except.error e => Except.error e
    | Except.ok nbZeros =>
      if (countLeadingZeros b.hash : Int) < nbZeros then
        Except.error "Wrong proof-of-work level"
      else Except.ok ()

/-- Issuer-eligibility test of the source's checkIssuer. -/
def checkIssuer (s : State) (b : KeyBlockRec) : Except String Unit :=
  if isMember s b.issuer then Except.ok ()
  else if b.number = 0 then
    if b.membersChanges.contains ("+" ++ b.issuer) then Except.ok ()
    else Except.error "Keyblock not signed by the root members"
  else Except.error "Keyblock must be signed by an existing member"

/-- Certification graph under test: stored non-obsolete links plus the links
of the candidate block, each newLinks entry target mapping to its certifier
sources. Modelled from the spec: the Link store queries walk the union of
stored links and extraLinks. -/
def wotEdges (s : State) (nl : NewLinks) : List (String × String) :=
  s.links.filterMap (fun l => if l.obsolete then none else some (l.source, l.target)) ++
    nl.flatMap (fun p => p.2.map (fun src => (src, p.1)))

/-- Bounded reachability: a path of at most the given number of certification
steps. Modelled from the spec: the Link store answers reachability within N
hops by bounded breadth-first search. -/
def reachesWithin (edges : List (String × String)) : Nat → String → String → Bool
  | 0, src, dst => src == dst
  | n + 1, src, dst =>
    src == dst ||
      (edges.filter (fun e => e.1 == src)).any (fun e => reachesWithin edges n e.2 dst)

/-- Modelled from the spec: membersNotReachedWithin of the WoT graph, the
candidates with no path from the source within three steps. -/
def membersNotReachedWithin (edges : List (String × String)) (src : String)
    (candidates : List String) : List String :=
  candidates.filter (fun c => !reachesWithin edges 3 src c)

/-- Modelled from the spec: Link.isOver3StepsOfAMember, answered over stored
non-obsolete links only. -/
def isOver3StepsOfAMember (s : State) (fpr : String) (candidates : List String) : List String :=
  membersNotReachedWithin (wotEdges s []) fpr candidates

/-- Modelled from the spec: Link.isStillOver3Steps, answered over stored links
united with the candidate block's extra links. -/
def isStillOver3Steps (s : State) (fpr : String) (candidates : List String)
    (nl : NewLinks) : List String :=
  membersNotReachedWithin (wotEdges s nl) fpr candidates

/-- Link-count test of the source's checkHaveEnoughLinks: stored valid links
to the target plus the block's own links must reach sigQty. -/
def checkHaveEnoughLinks (sigQty : Nat) (s : State) (nl : NewLinks)
    (target : String) : Except String Unit :=
  let count := (currentValidLinks s target).length + (nlGet nl target).length
  if count < sigQty then
    Except.error ("Key " ++ target.drop 24 ++ " does not have enough links (" ++
      toString count ++ "/" ++ toString sigQty ++ ")")
  else Except.ok ()

/-- Fingerprints added by the block's membersChanges (the entries matching the
leading-plus regexp, with the sign stripped). -/
def newcomersOf (b : KeyBlockRec) : List String :=
  b.membersChanges.filterMap (fun c => if firstCharIs '+' c then some (c.drop 1) else none)

/-- Per-newcomer body of checkWoTStability: link count (skipped at block
number zero), recognition of the newcomer by the WoT, then recognition of
every member by the newcomer. -/
def wotNewcomerCheck (sigQty : Nat) (s : State) (b : KeyBlockRec) (nl : NewLinks)
    (members : List String) (newcomer : String) : Except String Unit :=
  match (if b.number > 0 then checkHaveEnoughLinks sigQty s nl newcomer else Except.ok ()) with
  | Except.error e => Except.error e
  | Except.ok _ =>
    let firstCheck := isOver3StepsOfAMember s newcomer members
    match (if firstCheck.length > 0 then
            (if (isStillOver3Steps s newcomer firstCheck nl).length > 0 then
              Except.error ("Newcomer " ++ newcomer ++ " is not recognized by the WoT for this block")
            else Except.ok ())
          else Except.ok ()) with
    | Except.error e => Except.error e
    | Except.ok _ =>
      forEachSeries (fun m =>
        if (isStillOver3Steps s m [newcomer] nl).length > 0 then
          Except.error ("Newcomer " ++ newcomer ++ " cannot recognize member " ++ m ++
            ": no path found or too much distance")
        else Except.ok ()) members

/-- WoT-stability test of the source's checkWoTStability: the newcomers of
membersChanges are appended to the member list and each is tested in turn. -/
def checkWoTStability (sigQty : Nat) (s : State) (b : KeyBlockRec)
    (nl : NewLinks) : Except String Unit :=
  let members := (getMembers s).map (fun k => k.fingerprint) ++ newcomersOf b
  forEachSeries (wotNewcomerCheck sigQty s b nl members) (newcomersOf b)

/-- Value reaching the second waterfall step of checkKicked. The source passes
the enclosing waterfall continuation, not the parallel task callback, as the
completion callback of Link.isStillOver3Steps, so the step receives the raw
distances array instead of the keyed parallel result. -/
inductive KickedStepInput where
  | distancesArray (ds : List String)
  | parallelResult (outdistanced : List String) (enoughLinks : Option String)
  deriving Repr, DecidableEq

/-- Second waterfall step of checkKicked. On the keyed record it applies the
kick rules; on the raw array, reading the outdistanced field yields undefined
and taking its length throws, aborting validation. -/
def checkKickedStep2 (membersChanges : List String) (k : KeyRec) :
    KickedStepInput → Except String Unit
  | KickedStepInput.distancesArray _ =>
    Except.error "TypeError: Cannot read property 'length' of undefined"
  | KickedStepInput.parallelResult outdistanced enoughLinksErr =>
    let isStill := outdistanced.length > 0
    let isBeingKicked := membersChanges.contains ("-" ++ k.fingerprint)
    if isStill ∧ ¬isBeingKicked then
      Except.error ("Member " ++ k.fingerprint ++ " has to lose his member status. Wrong block.")
    else if ¬isStill ∧ isBeingKicked then
      Except.error ("Member " ++ k.fingerprint ++
        " is no more outdistanced and should not be kicked. Wrong block.")
    else
      match enoughLinksErr with
      | some e => if ¬isBeingKicked then Except.error e else Except.ok ()
      | none => Except.ok ()

/-- Kicked-set test of the source's checkKicked, with the miswired parallel
callback reproduced: every to-be-kicked key feeds the distances array of
Link.isStillOver3Steps straight into the second step. -/
def checkKicked (sigQty : Nat) (s : State) (b : KeyBlockRec) (nl : NewLinks) :
    Except String Unit :=
  forEachSeries (fun k =>
    checkKickedStep2 b.membersChanges k
      (KickedStepInput.distancesArray (isStillOver3Steps s k.fingerprint k.distanced nl)))
    (getToBeKicked s)

/-- Modelled from the spec: KeyBlock.getMemberships collects the membership
declarations embedded in the block's NEWCOMER keychanges (the method lives in
the KeyBlock entity, outside src/). -/
def getMemberships (O : Oracle) (b : KeyBlockRec) : List ParsedMs :=
  b.keysChanges.filterMap (fun kc =>
    if kc.type == "N" then kc.membership.map (fun m => O.fromInline m.membership m.signature)
    else none)

/-- Members-changes test of the source's checkCommunityChanges: every embedded
membership must match a membersChanges entry of the corresponding sign. The
source latches a single error string over the iteration, which is equivalent
to requiring every entry to match. -/
def checkCommunityChanges (O : Oracle) (b : KeyBlockRec) : Except String Unit :=
  if (getMemberships O b).all (fun ms =>
      b.membersChanges.contains ((if ms.membership == "IN" then "+" else "-") ++ ms.fingerprint))
  then Except.ok ()
  else Except.error "Wrong members changes"

/-- Per-keychange test of the source's checkKeychange, with the library calls
delegated to the oracle. Reading the inline membership of an absent membership
object throws before the dedicated requirement message can fire. -/
def checkKeychange (O : Oracle) (kc : Keychange) (newKeys : List String) :
    Except String (List String) :=
  if kc.type == "N" then
    match kc.membership with
    | none => Except.error "TypeError: cannot read property membership of undefined"
    | some m =>
      let key := O.fromEncodedPackets kc.keypackets
      let ms := O.fromInline m.membership m.signature
      if kc.certpackets = "" then Except.error "Certification packets are required for NEWCOMER type"
      else if ms.membership ≠ "IN" then Except.error "Membership must be IN for NEWCOMER type"
      else if ¬key.hasValidUdid2 then Except.error "Key must have valid udid2 for NEWCOMER type"
      else if ms.userid ≠ key.userID then Except.error "Membership must match same UserID as key"
      else if key.newcomerEncoding ≠ O.unix2dosTrim kc.keypackets then
        Except.error "Only 1 pubkey, 1 udid2 userid, certifications, subkeys & subkey bindings are allowed for NEWCOMER type"
      else
        match O.checkCertifications kc.certpackets kc.fingerprint newKeys with
        | Except.error e => Except.error e
        | Except.ok certifiers =>
          if O.verifyMembershipSig key ms m.signature then Except.ok certifiers
          else Except.error ("Bad signature for membership of " ++ ms.userid)
  else if kc.type == "U" then
    if kc.membership.isSome then Except.error "Membership must NOT be provided for UPDATE type"
    else if kc.keypackets = "" ∧ kc.certpackets = "" then
      Except.error "Both KeyPackets and CertificationPakcets CANNOT be empty for UPDATE type"
    else if kc.keypackets ≠ "" ∧ ¬O.hasOnlySubkeyMaterial kc.keypackets then
      Except.error "KeyPackets MUST contain only subkeys & subkey bindings if not empty for UPDATE type"
    else if kc.certpackets ≠ "" ∧ ¬O.hasOnlyCertificationMaterial kc.certpackets then
      Except.error "CertificationPackets MUST contain only certifications if not empty for UPDATE type"
    else O.checkCertifications kc.certpackets kc.fingerprint newKeys
  else if kc.type == "L" then Except.error "LEAVER keychange type not managed yet"
  else if kc.type == "B" then Except.error "BACK keychange type not managed yet"
  else Except.error ("Unknown keychange type " ++ kc.type)

/-- One pass of checkKeychanges over the keychange list for one type tag:
foreign types abort, other-tag entries are skipped, matching entries are
checked and their certifiers recorded as new links. -/
def checkKeychangesList (O : Oracle) (newKeys : List String) (currentType : String) :
    List Keychange → NewLinks → Except String NewLinks
  | [], nl => Except.ok nl
  | kc :: rest, nl =>
    if kc.type ≠ "U" ∧ kc.type ≠ "N" then
      Except.error "Only NEWCOMER & UPDATE blocks are managed for now"
    else if kc.type ≠ currentType then checkKeychangesList O newKeys currentType rest nl
    else
      match checkKeychange O kc newKeys with
      | Except.error e => Except.error e
      | Except.ok certifiers =>
        checkKeychangesList O newKeys currentType rest (nlSet nl kc.fingerprint certifiers)

/-- Keychange validation of the source's checkKeychanges: NEWCOMER keychanges
first, then UPDATE keychanges, with the NEWCOMER fingerprints of the block
available for certifier resolution. -/
def checkKeychanges (O : Oracle) (b : KeyBlockRec) : Except String NewLinks :=
  let newKeys := b.keysChanges.filterMap
    (fun kc => if kc.type == "N" then some kc.fingerprint else none)
  match checkKeychangesList O newKeys "N" b.keysChanges [] with
  | Except.error e => Except.error e
  | Except.ok nl => checkKeychangesList O newKeys "U" b.keysChanges nl

/-- Coherence pipeline of the source's checkCoherence: keychanges, WoT
stability, kicked set, members changes; on success the new links flow out. -/
def checkCoherence (O : Oracle) (conf : Conf) (s : State) (b : KeyBlockRec) :
    Except String NewLinks :=
  match checkKeychanges O b with
  | Except.error e => Except.error e
  | Except.ok nl =>
    match checkWoTStability conf.sigQty s b nl with
    | Except.error e => Except.error e
    | Except.ok _ =>
      match checkKicked conf.sigQty s b nl with
      | Except.error e => Except.error e
      | Except.ok _ =>
        match checkCommunityChanges O b with
        | Except.error e => Except.error e
        | Except.ok _ => Except.ok nl

/-- Modelled from the spec: Key.addMember of the member index (creates the
row when absent). -/
def addMember (s : State) (fpr : String) : State :=
  if s.keys.any (fun k => k.fingerprint == fpr) then
    { s with keys := s.keys.map (fun k =>
        if k.fingerprint == fpr then { k with member := true } else k) }
  else
    { s with keys := s.keys ++ [{ fingerprint := fpr, member := true, kick := false, distanced := [] }] }

/-- Modelled from the spec: Key.removeMember of the member index. -/
def removeMember (s : State) (fpr : String) : State :=
  { s with keys := s.keys.map (fun k =>
      if k.fingerprint == fpr then { k with member := false } else k) }

/-- Modelled from the spec: Key.unsetKicked clears the kicked state, the kick
flag together with the cached distanced set. -/
def unsetKicked (s : State) (fpr : String) : State :=
  { s with keys := s.keys.map (fun k =>
      if k.fingerprint == fpr then { k with kick := false, distanced := [] } else k) }

/-- Modelled from the spec: Key.setKicked records the distanced set and raises
the kick flag when the key is out-distanced or lacks links. -/
def setKicked (s : State) (fpr : String) (distanced : List String) (notEnoughLinks : Bool) : State :=
  { s with keys := s.keys.map (fun k =>
      if k.fingerprint == fpr then
        { k with kick := !distanced.isEmpty || notEnoughLinks, distanced := distanced }
      else k) }

/-- Member updates of the source's updateMembers: each membersChanges entry
adds or removes the fingerprint and clears its kicked state. -/
def updateMembers (s : State) (b : KeyBlockRec) : State :=
  b.membersChanges.foldl (fun s mc =>
    let isPlus := firstCharIs '+' mc
    let fpr := mc.drop 1
    unsetKicked ((if isPlus then addMember else removeMember) s fpr) fpr) s

/-- Trusted-key insertion of saveBlockData for each NEWCOMER keychange
(getNewPubkeys is a KeyBlock entity method outside src/; modelled from the
spec, it yields the decoded key of each NEWCOMER). The parallel submission to
the PublicKey service is outside the stores modelled here. -/
def saveTrustedFromNewcomers (O : Oracle) (s : State) (b : KeyBlockRec) : State :=
  b.keysChanges.foldl (fun s kc =>
    if kc.type == "N" then
      { s with trustedKeys := s.trustedKeys ++
          [{ fingerprint := kc.fingerprint, keyID := kc.fingerprint.drop 24,
             uid := (O.fromEncodedPackets kc.keypackets).userID,
             packets := O.trustedPackets kc.keypackets }] }
    else s) s

/-- Trusted-key merge of saveBlockData for each UPDATE keychange (getKeyUpdates
is a KeyBlock entity method outside src/; modelled from the spec, new
certifications splice behind the user id and self-signature and new subkeys
append at the end). -/
def saveKeyUpdates (O : Oracle) (s : State) (b : KeyBlockRec) : State :=
  b.keysChanges.foldl (fun s kc =>
    if kc.type == "U" then
      { s with trustedKeys := s.trustedKeys.map (fun tk =>
          if tk.fingerprint == kc.fingerprint then
            { tk with packets := O.mergeTrusted tk.packets kc.certpackets kc.keypackets }
          else tk) }
    else s) s

/-- Link persistence of saveBlockData: one link row per certifier of each
newLinks target, timestamped with the block. -/
def saveLinks (s : State) (b : KeyBlockRec) (nl : NewLinks) : State :=
  { s with links := s.links ++ nl.flatMap (fun p => p.2.map (fun src =>
      { source := src, target := p.1, timestamp := b.timestamp, obsolete := false })) }

/-- Modelled from the spec: Membership.removeFor drops the pending
memberships of a fingerprint from the pool. -/
def removeMembershipsFor (s : State) (fpr : String) : State :=
  { s with memberships := s.memberships.filter (fun m => m.issuer != fpr) }

/-- Membership cleanup of saveBlockData: every membership fingerprint carried
by the block leaves the pool. -/
def saveMembershipRemovals (O : Oracle) (s : State) (b : KeyBlockRec) : State :=
  (getMemberships O b).foldl (fun s p => removeMembershipsFor s p.fingerprint) s

/-- Modelled from the spec: Link.obsoletes marks every link older than the
cutoff obsolete. -/
def markObsoletes (s : State) (cutoff : Int) : State :=
  { s with links := s.links.map (fun l =>
      if l.timestamp < cutoff then { l with obsolete := true } else l) }

/-- Success test of an Except value (a falsy error in the callback chain). -/
def exOk : Except String α → Bool
  | Except.ok _ => true
  | Except.error _ => false

/-- Obsolescence and distancing pass of the source's computeObsoleteLinks:
age out links, then recompute each member's distanced set and kick flag. -/
def computeObsoleteLinks (sigQty : Nat) (sigValidity : Int) (s : State) (b : KeyBlockRec) : State :=
  let s := markObsoletes s (b.timestamp - sigValidity)
  let memberFprs := (getMembers s).map (fun k => k.fingerprint)
  (getMembers s).foldl (fun s k =>
    let distancedKeys := isOver3StepsOfAMember s k.fingerprint memberFprs
    let notEnoughLinks := !exOk (checkHaveEnoughLinks sigQty s [] k.fingerprint)
    setKicked s k.fingerprint distancedKeys notEnoughLinks) s

/-- State transition of the source's saveBlockData: persist the block, update
members, store trusted keys and key updates, append links, drop consumed
memberships, then recompute obsolescence and kicks. The available-key-material
refresh touches only the PublicKey service, outside the stores modelled
here. -/
def saveBlockData (conf : Conf) (O : Oracle) (s : State) (b : KeyBlockRec) (nl : NewLinks) : State :=
  let s := { s with blocks := s.blocks ++ [b] }
  let s := updateMembers s b
  let s := saveTrustedFromNewcomers O s b
  let s := saveKeyUpdates O s b
  let s := saveLinks s b nl
  let s := saveMembershipRemovals O s b
  computeObsoleteLinks conf.sigQty conf.sigValidity s b

/-- Validation pipeline of submitKeyBlock in source order: chain linkage,
timestamp window, proof of work, issuer, then the coherence checks. -/
def validateKeyBlock (conf : Conf) (O : Oracle) (checkTs : Bool) (now : Int)
    (s : State) (b : KeyBlockRec) : Except String NewLinks :=
  match chainCheck (currentBlock s) b with
  | Except.error e => Except.error e
  | Except.ok _ =>
    match tsCheck conf checkTs now b with
    | Except.error e => Except.error e
    | Except.ok _ =>
      match checkProofOfWork conf s (currentBlock s) b with
      | Except.error e => Except.error e
      | Except.ok _ =>
        match checkIssuer s b with
        | Except.error e => Except.error e
        | Except.ok _ => checkCoherence O conf s b

/-- The service's submitKeyBlock: the block (its issuer field already set from
the submitted pubkey fingerprint) is validated against the snapshot, and only
a fully validated block reaches saveBlockData; the proof-of-work handshake in
between touches no store. Returns the outcome and the resulting stores. -/
def submitKeyBlock (conf : Conf) (O : Oracle) (checkTs : Bool) (now : Int)
    (s : State) (b : KeyBlockRec) : Except String KeyBlockRec × State :=
  match validateKeyBlock conf O checkTs now s b with
  | Except.error e => (Except.error e, s)
  | Except.ok nl => (Except.ok b, saveBlockData conf O s b nl)

/-- One search iteration's block update in the source's prove loop: the nonce
increments while the clock reading equals the block timestamp, otherwise the
nonce resets and the timestamp takes the new reading. -/
def proveStep (newTS : Int) (b : KeyBlockRec) : KeyBlockRec :=
  if newTS = b.timestamp then { b with nonce := b.nonce + 1 }
  else { b with nonce := 0, timestamp := newTS }

/-- Search loop of the source's prove: while the latest digest lacks the
required zeros, update the block, sign its raw form (the signing callback
already carries the line normalization applied to the signature), hash raw
concatenated with the signature, and every fiftieth test that is not a
hundredth poll the cancel signal. Fuel bounds the unbounded JS loop; running
out of fuel, like cancellation, yields no block. -/
def proveLoop (getRaw : KeyBlockRec → String) (sigFunc : String → String)
    (hashStr : String → String) (nows : Nat → Int) (cancelAt : Nat → Bool)
    (nbZeros : Nat) : Nat → Nat → KeyBlockRec → String → String →
    Option (KeyBlockRec × String)
  | 0, _, _, _, _ => none
  | fuel + 1, testsCount, b, sig, pow =>
    if nbZeros ≤ countLeadingZeros pow then some (b, sig)
    else
      let b' := proveStep (nows testsCount) b
      let raw := getRaw b'
      let sig' := sigFunc raw
      let pow' := hashStr (raw ++ sig')
      let tests' := testsCount + 1
      if tests' % 100 ≠ 0 ∧ tests' % 50 = 0 ∧ cancelAt tests' then none
      else proveLoop getRaw sigFunc hashStr nows cancelAt nbZeros fuel tests' b' sig' pow'

/-- The service's prove: run the search loop from an empty digest and, on
success, return the block carrying the found signature. -/
def prove (getRaw : KeyBlockRec → String) (sigFunc : String → String)
    (hashStr : String → String) (nows : Nat → Int) (cancelAt : Nat → Bool)
    (nbZeros : Nat) (fuel : Nat) (b : KeyBlockRec) : Option KeyBlockRec :=
  match proveLoop getRaw sigFunc hashStr nows cancelAt nbZeros fuel 0 b "" "" with
  | some (b', sig) => some { b' with signature := sig }
  | none => none

/-- Modelled from the spec: Membership.getForHashAndIssuer of the pool. -/
def getForHashAndIssuer (s : State) (h : String) (issuer : String) : List MembershipRec :=
  s.memberships.filter (fun m => m.hash == h && m.issuer == issuer)

/-- Modelled from the spec: Membership.removeEligible drops the issuer's
eligible pending memberships. -/
def removeEligible (s : State) (issuer : String) : State :=
  { s with memberships := s.memberships.filter (fun m => !(m.issuer == issuer && m.eligible)) }

/-- Eligibility test of the source's hasEligiblePubkey: a stored pubkey
already in the keychain, or one decoding to a key with a valid udid2. A
missing pubkey row propagates as an error. -/
def hasEligiblePubkey (O : Oracle) (s : State) (fpr : String) : Except String Bool :=
  match s.pubkeys.find? (fun p => p.fingerprint == fpr) with
  | none => Except.error "No public key found"
  | some pk => Except.ok (if pk.keychain then true else O.hasValidUdid2 pk.raw)

/-- Branching of submitMembership after the duplicate gate: join/leave versus
membership status, the eligible-pubkey requirement, then pool update. -/
def submitMembershipRest (O : Oracle) (s : State) (entry : MembershipRec) :
    Except String MembershipRec × State :=
  let isMem := isMember s entry.issuer
  let isJoin := entry.membership == "IN"
  let isCleanRes : Except String Bool :=
    if ¬isMem ∧ isJoin then hasEligiblePubkey O s entry.issuer
    else if isMem ∧ ¬isJoin then Except.ok true
    else if isJoin then Except.error "A member cannot join in."
    else Except.error "A non-member cannot leave."
  match isCleanRes with
  | Except.error e => (Except.error e, s)
  | Except.ok isClean =>
    if ¬isClean then (Except.error "Needs an eligible public key (with udid2)", s)
    else
      let s := removeEligible s entry.issuer
      let s := { s with memberships := s.memberships ++ [entry] }
      (Except.ok entry, s)

/-- The service's submitMembership: an already-stored entry of the same hash
and issuer with a later date rejects the submission, otherwise the join/leave
rules apply and an accepted entry replaces the issuer's eligible entries. -/
def submitMembership (O : Oracle) (s : State) (entry : MembershipRec) :
    Except String MembershipRec × State :=
  match getForHashAndIssuer s entry.hash entry.issuer with
  | e0 :: _ =>
    if entry.date < e0.date then (Except.error "Already received membership", s)
    else submitMembershipRest O s entry
  | [] => submitMembershipRest O s entry

deriving instance DecidableEq for Except

/-- Required zero count exactly as the claim words it: Z equals the maximum of
powZeroMin and powZeroMin plus the last-issuer penalty minus the waited
periods, the penalty being the leading zeros of the issuer's last block hash
minus powZeroMin plus one (zero without a prior block), the waited periods the
floor of the block-number gap over the period. Stated from the claim for
comparison against the source's getTrialLevel. -/
def claimRequiredZeros (conf : Conf) (s : State) (issuer : String) (number : Nat)
    (wotSize : Nat) : Int :=
  match lastOfIssuer s issuer with
  | none => (conf.powZeroMin : Int)
  | some last =>
    let penalty : Int := (countLeadingZeros last.hash : Int) - (conf.powZeroMin : Int) + 1
    let p : Nat := if conf.powPeriodC then conf.powPeriod else conf.powPeriod * wotSize / 100
    let waited : Nat := (number - last.number) / p
    max (conf.powZeroMin : Int) ((conf.powZeroMin : Int) + penalty - (waited : Int))

/-- Configuration used by the concrete validation scenarios (sigQty two). -/
def confA : Conf :=
  { sigQty := 2, sigValidity := 1000, powZeroMin := 1, powPeriod := 1,
    powPeriodC := true, tsInterval := 100, currency := "beta" }

/-- Configuration used by the concrete validation scenarios (sigQty one). -/
def confB : Conf :=
  { sigQty := 1, sigValidity := 1000, powZeroMin := 1, powPeriod := 1,
    powPeriodC := true, tsInterval := 100, currency := "beta" }

/-- Empty stores, the snapshot before any block. -/
def stateEmpty : State :=
  { blocks := [], keys := [], links := [], trustedKeys := [], memberships := [], pubkeys := [] }

/-- Keyblock literal with empty keychanges, zero timestamp and nonce. -/
def mkBlock (number : Nat) (issuer prevHash prevIssuer root : String) (cnt : Nat)
    (changes : List String) (hash : String) : KeyBlockRec :=
  { number := number, currency := "beta", previousHash := prevHash, previousIssuer := prevIssuer,
    timestamp := 0, nonce := 0, issuer := issuer, membersRoot := root, membersCount := cnt,
    membersChanges := changes, keysChanges := [], signature := "", hash := hash }

/-- Non-root block submitted against empty stores. -/
def blockNum1 : KeyBlockRec := mkBlock 1 "A" "" "" "R" 1 ["+A"] "0H"

/-- Genesis block carrying one members root value. -/
def blockRootX : KeyBlockRec := mkBlock 0 "A" "" "" "INVALIDROOT" 42 ["+A"] "0H"

/-- Genesis block identical to blockRootX apart from members root and count. -/
def blockRootY : KeyBlockRec := mkBlock 0 "A" "" "" "OTHERROOT" 7 ["+A"] "0H"

/-- Genesis block adding founder B who carries no certification link. -/
def blockGenB : KeyBlockRec := mkBlock 0 "B" "" "" "RB" 1 ["+B"] "0H"

/-- Well-formed genesis block by A used for the resubmission scenario. -/
def blockG : KeyBlockRec := mkBlock 0 "A" "" "" "RA" 1 ["+A"] "0H"

/-- Stores obtained by applying blockG on empty stores. -/
def stateG1 : State := (submitKeyBlock confA trivialOracle true 0 stateEmpty blockG).2

/-- An unrelated root block competing at the same number as blockG. -/
def blockG2 : KeyBlockRec := mkBlock 0 "C" "" "" "RC" 1 ["+C"] "0Z"

/-- Stored genesis by M backing the number-one scenarios. -/
def blockRoot6 : KeyBlockRec := mkBlock 0 "M" "" "" "RM" 1 ["+M"] "0H"

/-- Member row for M. -/
def keyM : KeyRec := { fingerprint := "M", member := true, kick := false, distanced := [] }

/-- Snapshot after blockRoot6 with mutual stored links between M and F. -/
def stateC6 : State :=
  { blocks := [blockRoot6], keys := [keyM],
    links := [{ source := "M", target := "F", timestamp := 0, obsolete := false },
              { source := "F", target := "M", timestamp := 0, obsolete := false }],
    trustedKeys := [], memberships := [], pubkeys := [] }

/-- Number-one block whose membersChanges adds F with no backing keychange. -/
def blockPlusF : KeyBlockRec := mkBlock 1 "M" "0H" "M" "RR" 2 ["+F"] "0K"

/-- Key row flagged for kicking with a cached distanced set. -/
def keyK : KeyRec := { fingerprint := "K", member := true, kick := true, distanced := ["M"] }

/-- Snapshot holding one to-be-kicked key. -/
def stateKick : State :=
  { blocks := [], keys := [keyK], links := [], trustedKeys := [], memberships := [], pubkeys := [] }

/-- Block that kicks K, the outcome the kicked-set rule calls for. -/
def blockKick : KeyBlockRec := mkBlock 1 "M" "0H" "M" "R" 1 ["-K"] "0K"

/-- Prior block of issuer A grounding the proof-of-work scenario. -/
def blockPW0 : KeyBlockRec := mkBlock 0 "A" "" "" "R" 1 ["+A"] "0H"

/-- Snapshot holding the issuer's prior block. -/
def statePW : State :=
  { blocks := [blockPW0], keys := [], links := [], trustedKeys := [], memberships := [], pubkeys := [] }

/-- Candidate block of issuer A at number one with two leading zeros. -/
def blockPW1 : KeyBlockRec := mkBlock 1 "A" "0H" "A" "R" 1 [] "00K"

/-- Stored pending membership of issuer P dated five. -/
def poolEntry : MembershipRec :=
  { issuer := "P", membership := "IN", userid := "u", date := 5, hash := "h", eligible := true }

/-- Snapshot with member M and the pending membership of P. -/
def stateMS : State :=
  { blocks := [], keys := [keyM], links := [], trustedKeys := [],
    memberships := [poolEntry], pubkeys := [] }

/-- Join request of the existing member M. -/
def msJoinMember : MembershipRec :=
  { issuer := "M", membership := "IN", userid := "m", date := 0, hash := "x", eligible := true }

/-- Resubmission of P's membership dated earlier than the stored entry. -/
def msStale : MembershipRec :=
  { issuer := "P", membership := "IN", userid := "u", date := 3, hash := "h", eligible := true }

/-- Constant serialization oracle for the proof-of-work scenario. -/
def getRawW : KeyBlockRec → String := fun _ => "R"

/-- Constant signing oracle for the proof-of-work scenario. -/
def sigW : String → String := fun _ => "S"

/-- Constant digest oracle answering one leading zero. -/
def hashW : String → String := fun _ => "0"

/-- Clock stream for the proof-of-work scenario. -/
def nowsW : Nat → Int := fun _ => 5

/-- Cancel signal that never fires. -/
def cancelW : Nat → Bool := fun _ => false

/-- Unsigned block handed to the proof-of-work search. -/
def blockP : KeyBlockRec := mkBlock 0 "A" "" "" "R" 1 [] ""

/-- Block the proof-of-work search returns in the scenario. -/
def provedBlockW : KeyBlockRec := { blockP with timestamp := 5, nonce := 0, signature := "S" }

/-- Snapshot with the single member M and no links. -/
def stateW4 : State :=
  { blocks := [], keys := [keyM], links := [], trustedKeys := [], memberships := [], pubkeys := [] }

/-- Number-one block adding newcomer A. -/
def blockW4 : KeyBlockRec := mkBlock 1 "M" "0H" "M" "R" 2 ["+A"] "0K"

/-- Block links certifying A from M and M from A. -/
def nlW4 : NewLinks := [("A", ["M"]), ("M", ["A"])]

lemma forEachSeries_ok {f : α → Except String Unit} :
    ∀ {l : List α}, forEachSeries f l = Except.ok () → ∀ x ∈ l, f x = Except.ok () := by
  intro l
  induction l with
  | nil => intro _ x hx; cases hx
  | cons a rest ih =>
    intro h x hx
    unfold forEachSeries at h
    cases hfa : f a with
    | error e => rw [hfa] at h; cases h
    | ok u =>
      rw [hfa] at h
      rcases List.mem_cons.mp hx with rfl | hmem
      · cases u; exact hfa
      · exact ih h x hmem

lemma forEachSeries_congr {f g : α → Except String Unit} :
    ∀ {l : List α}, (∀ x ∈ l, f x = g x) → forEachSeries f l = forEachSeries g l := by
  intro l
  induction l with
  | nil => intro _; rfl
  | cons a rest ih =>
    intro h
    unfold forEachSeries
    rw [h a (List.mem_cons_self a rest), ih (fun x hx => h x (List.mem_cons_of_mem a hx))]

lemma maxByNumber_mem :
    ∀ {l : List KeyBlockRec} {b : KeyBlockRec}, b ∈ l →
      ∃ c, maxByNumber l = some c ∧ b.number ≤ c.number := by
  intro l
  induction l with
  | nil => intro b h; cases h
  | cons a rest ih =>
    intro b hb
    rcases List.mem_cons.mp hb with rfl | hmem
    · cases hm : maxByNumber rest with
      | none => exact ⟨b, by simp [maxByNumber, hm], le_refl _⟩
      | some c =>
        by_cases hgt : b.number > c.number
        · exact ⟨b, by simp [maxByNumber, hm, hgt], le_refl _⟩
        · exact ⟨c, by simp [maxByNumber, hm, hgt], by omega⟩
    · obtain ⟨c, hc, hle⟩ := ih hmem
      by_cases hgt : a.number > c.number
      · exact ⟨a, by simp [maxByNumber, hc, hgt], by omega⟩
      · exact ⟨c, by simp [maxByNumber, hc, hgt], hle⟩

lemma foldl_blocks_eq {f : State → α → State} (hf : ∀ s x, (f s x).blocks = s.blocks) :
    ∀ (l : List α) (s : State), (l.foldl f s).blocks = s.blocks := by
  intro l
  induction l with
  | nil => intro s; rfl
  | cons x xs ih => intro s; rw [List.foldl_cons, ih, hf]

lemma addMember_blocks (s : State) (fpr : String) : (addMember s fpr).blocks = s.blocks := by
  unfold addMember; split <;> rfl

lemma removeMember_blocks (s : State) (fpr : String) : (removeMember s fpr).blocks = s.blocks := rfl

lemma unsetKicked_blocks (s : State) (fpr : String) : (unsetKicked s fpr).blocks = s.blocks := rfl

lemma setKicked_blocks (s : State) (fpr : String) (d : List String) (ne : Bool) :
    (setKicked s fpr d ne).blocks = s.blocks := rfl

lemma updateMembers_blocks (s : State) (b : KeyBlockRec) :
    (updateMembers s b).blocks = s.blocks := by
  unfold updateMembers
  apply foldl_blocks_eq
  intro s mc
  by_cases h : firstCharIs '+' mc <;>
    simp [h, unsetKicked_blocks, addMember_blocks, removeMember_blocks]

lemma saveTrustedFromNewcomers_blocks (O : Oracle) (s : State) (b : KeyBlockRec) :
    (saveTrustedFromNewcomers O s b).blocks = s.blocks := by
  unfold saveTrustedFromNewcomers
  apply foldl_blocks_eq
  intro s kc
  by_cases h : kc.type == "N" <;> simp [h]

lemma saveKeyUpdates_blocks (O : Oracle) (s : State) (b : KeyBlockRec) :
    (saveKeyUpdates O s b).blocks = s.blocks := by
  unfold saveKeyUpdates
  apply foldl_blocks_eq
  intro s kc
  by_cases h : kc.type == "U" <;> simp [h]

lemma saveLinks_blocks (s : State) (b : KeyBlockRec) (nl : NewLinks) :
    (saveLinks s b nl).blocks = s.blocks := rfl

lemma saveMembershipRemovals_blocks (O : Oracle) (s : State) (b : KeyBlockRec) :
    (saveMembershipRemovals O s b).blocks = s.blocks := by
  unfold saveMembershipRemovals
  apply foldl_blocks_eq
  intro s p
  rfl

lemma computeObsoleteLinks_blocks (q : Nat) (v : Int) (s : State) (b : KeyBlockRec) :
    (computeObsoleteLinks q v s b).blocks = s.blocks := by
  unfold computeObsoleteLinks
  rw [foldl_blocks_eq (fun s k => setKicked_blocks ..)]
  rfl

lemma saveBlockData_blocks (conf : Conf) (O : Oracle) (s : State) (b : KeyBlockRec)
    (nl : NewLinks) : (saveBlockData conf O s b nl).blocks = s.blocks ++ [b] := by
  unfold saveBlockData
  rw [computeObsoleteLinks_blocks, saveMembershipRemovals_blocks, saveLinks_blocks,
    saveKeyUpdates_blocks, saveTrustedFromNewcomers_blocks, updateMembers_blocks]

lemma chainCheck_tooLate {c b : KeyBlockRec} (h : b.number ≤ c.number) :
    chainCheck (some c) b = Except.error "Too late for this block" := by
  unfold chainCheck
  simp [h]

lemma submitKeyBlock_chainError {conf : Conf} {O : Oracle} {ck : Bool} {now : Int}
    {s : State} {b : KeyBlockRec} {e : String}
    (h : chainCheck (currentBlock s) b = Except.error e) :
    submitKeyBlock conf O ck now s b = (Except.error e, s) := by
  unfold submitKeyBlock validateKeyBlock
  rw [h]

/-- C1: submitKeyBlock accepts the chain linkage of a candidate block exactly
when, against a null tip, its number is zero, and against a tip, its number is
the successor of the tip's and its previousHash and previousIssuer name the
tip's hash and issuer; any chaining failure surfaces as the submission
result with the stores untouched, so only a block passing these checks
proceeds to the remaining validations. -/
theorem chainCheck_characterization :
    (∀ b : KeyBlockRec, chainCheck none b = Except.ok () ↔ b.number = 0)
    ∧ (∀ t b : KeyBlockRec, chainCheck (some t) b = Except.ok () ↔
        (b.number = t.number + 1 ∧ b.previousHash = t.hash ∧ b.previousIssuer = t.issuer))
    ∧ (∀ (conf : Conf) (O : Oracle) (ck : Bool) (now : Int) (s : State) (b : KeyBlockRec)
        (e : String), chainCheck (currentBlock s) b = Except.error e →
        submitKeyBlock conf O ck now s b = (Except.error e, s)) := by
  refine ⟨?_, ?_, ?_⟩
  · intro b
    unfold chainCheck
    by_cases h : b.number > 0
    · rw [if_pos h]
      constructor
      · intro hc; exact Except.noConfusion hc
      · intro hc; omega
    · rw [if_neg h]
      constructor
      · intro _; omega
      · intro _; rfl
  · intro t b
    show (if b.number ≤ t.number then Except.error "Too late for this block"
      else if b.number > t.number + 1 then Except.error "Too early for this block"
      else if b.number = t.number + 1 ∧ b.previousHash ≠ t.hash then
        Except.error "PreviousHash does not target current block"
      else if b.number = t.number + 1 ∧ b.previousIssuer ≠ t.issuer then
        Except.error "PreviousIssuer does not target current block"
      else Except.ok ()) = Except.ok () ↔ _
    by_cases h1 : b.number ≤ t.number
    · rw [if_pos h1]
      constructor
      · intro hc; exact Except.noConfusion hc
      · rintro ⟨hn, -, -⟩; omega
    · rw [if_neg h1]
      by_cases h2 : b.number > t.number + 1
      · rw [if_pos h2]
        constructor
        · intro hc; exact Except.noConfusion hc
        · rintro ⟨hn, -, -⟩; omega
      · rw [if_neg h2]
        by_cases h3 : b.number = t.number + 1 ∧ b.previousHash ≠ t.hash
        · rw [if_pos h3]
          constructor
          · intro hc; exact Except.noConfusion hc
          · rintro ⟨-, hh, -⟩; exact absurd hh h3.2
        · rw [if_neg h3]
          by_cases h4 : b.number = t.number + 1 ∧ b.previousIssuer ≠ t.issuer
          · rw [if_pos h4]
            constructor
            · intro hc; exact Except.noConfusion hc
            · rintro ⟨-, -, hi⟩; exact absurd hi h4.2
          · rw [if_neg h4]
            have hn : b.number = t.number + 1 := by omega
            constructor
            · intro _
              refine ⟨hn, ?_, ?_⟩
              · by_contra hc; exact h3 ⟨hn, hc⟩
              · by_contra hc; exact h4 ⟨hn, hc⟩
            · intro _; rfl
  · intro conf O ck now s b e h
    exact submitKeyBlock_chainError h

/-- Witness for C1: the root block passes the null-tip chaining test, and a
number-one block against empty stores is rejected with the root-required
error, stores unchanged. -/
theorem chainCheck_characterization_witness :
    chainCheck none blockG = Except.ok () ∧
    submitKeyBlock confA trivialOracle true 0 stateEmpty blockNum1 =
      (Except.error "Requires root block first", stateEmpty) :=
  ⟨(chainCheck_characterization.1 blockG).mpr rfl,
   chainCheck_characterization.2.2 confA trivialOracle true 0 stateEmpty blockNum1
     "Requires root block first" (by decide)⟩

/-- C2: contrary to the claim, submitKeyBlock validates neither membersRoot
nor membersCount: two genesis blocks identical but for those two fields are
both accepted and applied, although the applied member set has one member
while the blocks announce counts of forty-two and seven, so at most one of
the two roots can be the Merkle root of that set. The call-site comment of
checkCommunityChanges announces a root and count check the function never
performs. -/
theorem membersRoot_not_validated :
    (submitKeyBlock confA trivialOracle true 0 stateEmpty blockRootX).1 = Except.ok blockRootX
    ∧ (submitKeyBlock confA trivialOracle true 0 stateEmpty blockRootY).1 = Except.ok blockRootY
    ∧ blockRootX.membersRoot ≠ blockRootY.membersRoot
    ∧ blockRootX.membersChanges = blockRootY.membersChanges
    ∧ (getMembers (submitKeyBlock confA trivialOracle true 0 stateEmpty blockRootX).2).length = 1
    ∧ blockRootX.membersCount = 42
    ∧ blockRootY.membersCount = 7 := by
  decide

/-- C5: contrary to the claim, checkKicked cannot re-examine a flagged member:
the source passes the waterfall continuation instead of the parallel task
callback to Link.isStillOver3Steps, so the second step receives the distances
array, reads an undefined outdistanced field and throws. The block that kicks
the still-failing member K, which the claim says must be accepted by this
check, aborts with the TypeError. -/
theorem checkKicked_typeError :
    checkKicked confA.sigQty stateKick blockKick [] =
      Except.error "TypeError: Cannot read property 'length' of undefined"
    ∧ blockKick.membersChanges.contains ("-" ++ keyK.fingerprint) = true
    ∧ getToBeKicked stateKick = [keyK] := by
  decide

lemma getTrialLevel_eq_claim {conf : Conf} {s : State} {issuer : String} {number wot : Nat}
    (h : ∀ last, lastOfIssuer s issuer = some last →
      0 < countLeadingZeros last.hash ∧ last.number < number ∧
      0 < (if conf.powPeriodC then conf.powPeriod else conf.powPeriod * wot / 100)) :
    getTrialLevel conf s issuer number wot =
      Except.ok (claimRequiredZeros conf s issuer number wot) := by
  cases hl : lastOfIssuer s issuer with
  | none => simp [getTrialLevel, claimRequiredZeros, hl]
  | some last =>
    obtain ⟨hz, hlt, hp⟩ := h last hl
    have hzne : ¬ countLeadingZeros last.hash = 0 := by omega
    have hpne : ¬ (if conf.powPeriodC then conf.powPeriod else conf.powPeriod * wot / 100) = 0 := by
      omega
    simp only [getTrialLevel, claimRequiredZeros, hl, if_neg hzne, if_neg hpne]
    have hcast : ((number : Int) - (last.number : Int)) = ((number - last.number : Nat) : Int) := by
      omega
    rw [hcast, ← Int.ofNat_fdiv]

/-- C3: proof-of-work validation accepts a candidate block exactly when its
hash carries at least Z leading zero hex digits, with Z computed as the claim
states it, for every snapshot in which the issuer's prior block, when one
exists, has at least one leading zero and a smaller number and the period
divisor is positive. -/
theorem checkProofOfWork_required_zeros :
    ∀ (conf : Conf) (s : State) (cur : Option KeyBlockRec) (b : KeyBlockRec),
    (∀ last, lastOfIssuer s b.issuer = some last →
      0 < countLeadingZeros last.hash ∧ last.number < b.number ∧
      0 < (if conf.powPeriodC then conf.powPeriod
           else conf.powPeriod * wotSizeOf cur / 100)) →
    (checkProofOfWork conf s cur b = Except.ok () ↔
      claimRequiredZeros conf s b.issuer b.number (wotSizeOf cur) ≤
        (countLeadingZeros b.hash : Int)) := by
  intro conf s cur b h
  have hZmin : (conf.powZeroMin : Int) ≤
      claimRequiredZeros conf s b.issuer b.number (wotSizeOf cur) := by
    cases hl : lastOfIssuer s b.issuer with
    | none => simp [claimRequiredZeros, hl]
    | some last =>
      simp only [claimRequiredZeros, hl]
      exact le_max_left _ _
  simp only [checkProofOfWork, getTrialLevel_eq_claim h]
  by_cases h1 : countLeadingZeros b.hash < conf.powZeroMin
  · rw [if_pos h1]
    constructor
    · intro hc; exact Except.noConfusion hc
    · intro hc; omega
  · rw [if_neg h1]
    by_cases h2 : (countLeadingZeros b.hash : Int) <
        claimRequiredZeros conf s b.issuer b.number (wotSizeOf cur)
    · rw [if_pos h2]
      constructor
      · intro hc; exact Except.noConfusion hc
      · intro hc; omega
    · rw [if_neg h2]
      constructor
      · intro _; omega
      · intro _; rfl

/-- Witness for C3: against a snapshot holding the issuer's prior block with
one leading zero, the number-one candidate with two leading zeros passes the
proof-of-work check, matching the claim's required-zero count of one. -/
theorem checkProofOfWork_required_zeros_witness :
    checkProofOfWork confA statePW (some blockPW0) blockPW1 = Except.ok () ∧
    claimRequiredZeros confA statePW blockPW1.issuer blockPW1.number
      (wotSizeOf (some blockPW0)) = 1 := by
  constructor
  · apply (checkProofOfWork_required_zeros confA statePW (some blockPW0) blockPW1 ?_).mpr
    · decide
    · intro last hl
      have hsome : (some blockPW0 : Option KeyBlockRec) = some last := by
        rw [← hl]; decide
      cases hsome
      decide
  · decide

/-- C4 counterexample: a genesis block adding founder B with zero
certification links, sigQty minus one under the sigQty-one configuration, is
accepted and applied by submitKeyBlock, contrary to the claim that the
link-count rule covers the genesis block: checkWoTStability skips
checkHaveEnoughLinks when the block number is zero. The block itself carries
no keychanges, so it contributes no links of its own. -/
theorem genesis_newcomer_without_links_accepted :
    (submitKeyBlock confB trivialOracle true 0 stateEmpty blockGenB).1 = Except.ok blockGenB
    ∧ "+B" ∈ blockGenB.membersChanges
    ∧ checkKeychanges trivialOracle blockGenB = Except.ok []
    ∧ (currentValidLinks (submitKeyBlock confB trivialOracle true 0 stateEmpty blockGenB).2
        "B").length = 0
    ∧ confB.sigQty = 1 := by
  decide

/-- C4 (amended): for blocks of positive number, checkWoTStability succeeds
only if every fingerprint added by membersChanges has at least sigQty links,
counting the stored valid links and the links the block itself introduces;
for the genesis block the link-count check is skipped entirely, the outcome
not depending on sigQty at all. -/
theorem wotStability_link_threshold :
    (∀ (sigQty : Nat) (s : State) (b : KeyBlockRec) (nl : NewLinks),
       0 < b.number →
       checkWoTStability sigQty s b nl = Except.ok () →
       ∀ fpr ∈ newcomersOf b,
         sigQty ≤ (currentValidLinks s fpr).length + (nlGet nl fpr).length)
    ∧ (∀ (q q' : Nat) (s : State) (b : KeyBlockRec) (nl : NewLinks),
        b.number = 0 → checkWoTStability q s b nl = checkWoTStability q' s b nl) := by
  constructor
  · intro sigQty s b nl hn hok fpr hmem
    have h1 := forEachSeries_ok hok fpr hmem
    unfold wotNewcomerCheck at h1
    rw [if_pos hn] at h1
    cases hE : checkHaveEnoughLinks sigQty s nl fpr with
    | error e => simp [hE] at h1
    | ok u =>
      by_contra hcon
      have hc : (currentValidLinks s fpr).length + (nlGet nl fpr).length < sigQty := by omega
      simp [checkHaveEnoughLinks, hc] at hE
  · intro q q' s b nl hn
    unfold checkWoTStability
    apply forEachSeries_congr
    intro nc _
    unfold wotNewcomerCheck
    have hng : ¬ b.number > 0 := by omega
    rw [if_neg hng, if_neg hng]

/-- Witness for C4: a number-one block adding newcomer A certified once,
meeting the sigQty-one threshold by its own links, and the sigQty independence
of genesis validation at two different sigQty values. -/
theorem wotStability_link_threshold_witness :
    (1 ≤ (currentValidLinks stateW4 "A").length + (nlGet nlW4 "A").length)
    ∧ checkWoTStability 0 stateEmpty blockGenB [] = checkWoTStability 5 stateEmpty blockGenB [] :=
  ⟨wotStability_link_threshold.1 1 stateW4 blockW4 nlW4 (by decide) (by decide) "A" (by decide),
   wotStability_link_threshold.2 0 5 stateEmpty blockGenB [] (by decide)⟩

/-- C6 counterexample: a number-one block whose membersChanges adds F while
carrying no keychange at all, hence no NEWCOMER keychange with fingerprint F,
is accepted by the whole validation pipeline against a snapshot where F
already has stored links: the backward direction of members-changes coherence
is nowhere enforced. -/
theorem plus_entry_without_newcomer_accepted :
    (submitKeyBlock confB trivialOracle true 0 stateC6 blockPlusF).1 = Except.ok blockPlusF
    ∧ "+F" ∈ blockPlusF.membersChanges
    ∧ blockPlusF.keysChanges = [] := by
  decide

/-- C6 (amended): checkCommunityChanges enforces only the forward direction
of members-changes coherence: it succeeds exactly when every membership
declaration embedded in a keychange has a membersChanges entry of the
matching sign; an added fingerprint without a backing NEWCOMER keychange is
not rejected. -/
theorem checkCommunityChanges_characterization :
    ∀ (O : Oracle) (b : KeyBlockRec),
      checkCommunityChanges O b = Except.ok () ↔
        ∀ ms ∈ getMemberships O b,
          ((if ms.membership == "IN" then "+" else "-") ++ ms.fingerprint) ∈ b.membersChanges := by
  intro O b
  unfold checkCommunityChanges
  by_cases h : (getMemberships O b).all (fun ms =>
      b.membersChanges.contains ((if ms.membership == "IN" then "+" else "-") ++ ms.fingerprint))
  · rw [if_pos h]
    simp only [List.all_eq_true, List.contains, List.elem_iff] at h
    exact iff_of_true rfl h
  · rw [if_neg h]
    simp only [List.all_eq_true, List.contains, List.elem_iff] at h
    exact iff_of_false (fun hc => Except.noConfusion hc) h

/-- Witness for C6 (amended): a block with no embedded membership
declarations passes checkCommunityChanges. -/
theorem checkCommunityChanges_characterization_witness :
    checkCommunityChanges trivialOracle blockW4 = Except.ok () :=
  (checkCommunityChanges_characterization trivialOracle blockW4).mpr (by decide)

/-- C7 counterexample: resubmitting the applied genesis block yields the
generic chaining rejection, the same error any block of a stale number
receives, not a dedicated already-seen kind: the service has no such kind.
The stores are untouched by the second call. -/
theorem duplicate_submission_too_late :
    (submitKeyBlock confA trivialOracle true 0 stateEmpty blockG).1 = Except.ok blockG
    ∧ submitKeyBlock confA trivialOracle true 0 stateG1 blockG =
        (Except.error "Too late for this block", stateG1)
    ∧ submitKeyBlock confA trivialOracle true 0 stateG1 blockG2 =
        (Except.error "Too late for this block", stateG1)
    ∧ blockG2 ≠ blockG := by
  decide

/-- C7 (amended): after submitKeyBlock accepts and applies a block, submitting
the same block again, under any clock and timestamp-checking mode, is rejected
with the TooLate chaining error and leaves the stores of the first call
untouched. -/
theorem resubmit_applied_block_too_late :
    ∀ (conf : Conf) (O : Oracle) (ck : Bool) (now : Int) (s : State) (b r : KeyBlockRec)
      (ck2 : Bool) (now2 : Int),
      (submitKeyBlock conf O ck now s b).1 = Except.ok r →
      submitKeyBlock conf O ck2 now2 (submitKeyBlock conf O ck now s b).2 b =
        (Except.error "Too late for this block", (submitKeyBlock conf O ck now s b).2) := by
  intro conf O ck now s b r ck2 now2 h
  cases hv : validateKeyBlock conf O ck now s b with
  | error e =>
    have h1 : (submitKeyBlock conf O ck now s b).1 = Except.error e := by
      unfold submitKeyBlock; rw [hv]
    rw [h1] at h
    exact Except.noConfusion h
  | ok nl =>
    have h2 : (submitKeyBlock conf O ck now s b).2 = saveBlockData conf O s b nl := by
      unfold submitKeyBlock; rw [hv]
    rw [h2]
    have hmem : b ∈ (saveBlockData conf O s b nl).blocks := by
      rw [saveBlockData_blocks]
      exact List.mem_append_right _ (List.mem_singleton_self b)
    obtain ⟨c, hc, hle⟩ := maxByNumber_mem hmem
    have hchain : chainCheck (currentBlock (saveBlockData conf O s b nl)) b =
        Except.error "Too late for this block" := by
      unfold currentBlock
      rw [hc]
      exact chainCheck_tooLate hle
    exact submitKeyBlock_chainError hchain

/-- Witness for C7 (amended): the concrete genesis resubmission. -/
theorem resubmit_applied_block_too_late_witness :
    submitKeyBlock confA trivialOracle true 0
        (submitKeyBlock confA trivialOracle true 0 stateEmpty blockG).2 blockG =
      (Except.error "Too late for this block",
        (submitKeyBlock confA trivialOracle true 0 stateEmpty blockG).2) :=
  resubmit_applied_block_too_late confA trivialOracle true 0 stateEmpty blockG blockG
    true 0 (by decide)

/-- C8: a submission failing any validation check returns that error with the
stores exactly as before the call, and an accepted submission's stores are
exactly those written by saveBlockData after full validation: state is
written nowhere else. -/
theorem submitKeyBlock_error_no_mutation :
    ∀ (conf : Conf) (O : Oracle) (ck : Bool) (now : Int) (s : State) (b : KeyBlockRec),
      (∀ e, (submitKeyBlock conf O ck now s b).1 = Except.error e →
        (submitKeyBlock conf O ck now s b).2 = s)
      ∧ (∀ r, (submitKeyBlock conf O ck now s b).1 = Except.ok r →
        ∃ nl, validateKeyBlock conf O ck now s b = Except.ok nl ∧
          (submitKeyBlock conf O ck now s b).2 = saveBlockData conf O s b nl) := by
  intro conf O ck now s b
  unfold submitKeyBlock
  cases hv : validateKeyBlock conf O ck now s b with
  | error e =>
    constructor
    · intro _ _; rfl
    · intro r hr; exact Except.noConfusion hr
  | ok nl =>
    constructor
    · intro e he; exact Except.noConfusion he
    · intro r _; exact ⟨nl, rfl, rfl⟩

/-- Witness for C8: the rejected number-one block against empty stores leaves
them empty. -/
theorem submitKeyBlock_error_no_mutation_witness :
    (submitKeyBlock confA trivialOracle true 0 stateEmpty blockNum1).2 = stateEmpty :=
  (submitKeyBlock_error_no_mutation confA trivialOracle true 0 stateEmpty blockNum1).1
    "Requires root block first" (by decide)

lemma proveLoop_spec {getRaw : KeyBlockRec → String} {sigFunc hashStr : String → String}
    {nows : Nat → Int} {cancelAt : Nat → Bool} {nbZeros : Nat} :
    ∀ (fuel tests : Nat) (b : KeyBlockRec) (sig pow : String) (b2 : KeyBlockRec) (sig2 : String),
      proveLoop getRaw sigFunc hashStr nows cancelAt nbZeros fuel tests b sig pow =
        some (b2, sig2) →
      (b2 = b ∧ sig2 = sig ∧ nbZeros ≤ countLeadingZeros pow) ∨
        nbZeros ≤ countLeadingZeros (hashStr (getRaw b2 ++ sig2)) := by
  intro fuel
  induction fuel with
  | zero => intro tests b sig pow b2 sig2 h; exact Option.noConfusion h
  | succ n ih =>
    intro tests b sig pow b2 sig2 h
    unfold proveLoop at h
    by_cases hz : nbZeros ≤ countLeadingZeros pow
    · rw [if_pos hz] at h
      obtain ⟨rfl, rfl⟩ : b2 = b ∧ sig2 = sig := by
        cases h; exact ⟨rfl, rfl⟩
      exact Or.inl ⟨rfl, rfl, hz⟩
    · rw [if_neg hz] at h
      by_cases hcancel : (tests + 1) % 100 ≠ 0 ∧ (tests + 1) % 50 = 0 ∧ cancelAt (tests + 1)
      · rw [if_pos hcancel] at h
        exact Option.noConfusion h
      · rw [if_neg hcancel] at h
        rcases ih (tests + 1) (proveStep (nows tests) b)
            (sigFunc (getRaw (proveStep (nows tests) b)))
            (hashStr (getRaw (proveStep (nows tests) b) ++
              sigFunc (getRaw (proveStep (nows tests) b)))) b2 sig2 h with
          ⟨hb, hs, hp⟩ | hgood
        · right
          rw [hb, hs]
          exact hp
        · exact Or.inr hgood

/-- C9: whenever prove returns a block, the digest of its raw form
concatenated with the carried signature has at least the required leading
zeros, provided the raw serialization ignores the signature field; and each
search iteration sets the block timestamp to the clock reading, resetting the
nonce when the clock advanced and incrementing it when it did not move. -/
theorem prove_pow_and_step :
    (∀ (getRaw : KeyBlockRec → String) (sigFunc hashStr : String → String)
       (nows : Nat → Int) (cancelAt : Nat → Bool) (nbZeros fuel : Nat) (b r : KeyBlockRec),
       (∀ (b' : KeyBlockRec) (sg : String), getRaw { b' with signature := sg } = getRaw b') →
       prove getRaw sigFunc hashStr nows cancelAt nbZeros fuel b = some r →
       nbZeros ≤ countLeadingZeros (hashStr (getRaw r ++ r.signature)))
    ∧ (∀ (t : Int) (b : KeyBlockRec), b.timestamp ≤ t →
        (proveStep t b).timestamp = t ∧
        (b.timestamp < t → (proveStep t b).nonce = 0) ∧
        (b.timestamp = t → (proveStep t b).nonce = b.nonce + 1)) := by
  constructor
  · intro getRaw sigFunc hashStr nows cancelAt nbZeros fuel b r hraw h
    unfold prove at h
    cases hl : proveLoop getRaw sigFunc hashStr nows cancelAt nbZeros fuel 0 b "" "" with
    | none => rw [hl] at h; exact Option.noConfusion h
    | some p =>
      obtain ⟨b2, sig2⟩ := p
      rw [hl] at h
      have hr : r = { b2 with signature := sig2 } := by
        cases h; rfl
      rcases proveLoop_spec fuel 0 b "" "" b2 sig2 hl with ⟨-, -, hp⟩ | hgood
      · have hz : nbZeros = 0 := by
          have : countLeadingZeros "" = 0 := rfl
          omega
        rw [hz]
        exact Nat.zero_le _
      · rw [hr]
        have hsig : ({ b2 with signature := sig2 } : KeyBlockRec).signature = sig2 := rfl
        rw [hsig, hraw b2 sig2]
        exact hgood
  · intro t b hle
    unfold proveStep
    by_cases he : t = b.timestamp
    · rw [if_pos he]
      refine ⟨he ▸ rfl, fun hlt => absurd he (by omega), fun _ => rfl⟩
    · rw [if_neg he]
      exact ⟨rfl, fun _ => rfl, fun heq => absurd heq.symm he⟩

/-- Witness for C9: a two-step search with constant oracles finds a block
whose digest meets the one-zero requirement, and one step against a clock
five seconds ahead resets the nonce and adopts the reading. -/
theorem prove_pow_and_step_witness :
    1 ≤ countLeadingZeros (hashW (getRawW provedBlockW ++ provedBlockW.signature))
    ∧ (proveStep 5 blockP).timestamp = 5 :=
  ⟨prove_pow_and_step.1 getRawW sigW hashW nowsW cancelW 1 2 blockP provedBlockW
      (fun _ _ => rfl) (by decide),
   (prove_pow_and_step.2 5 blockP (by decide)).1⟩

/-- C10: submitMembership rejects a join of an existing member and a leave of
a non-member, leaving the pool untouched; a join of a non-member succeeds only
when the stored pubkey is already in the keychain or decodes to a valid udid2
user id; and a submission matching a stored entry of the same hash and issuer
with a later date is rejected as already received, pool untouched. -/
theorem submitMembership_rules :
    ∀ (O : Oracle) (s : State) (e : MembershipRec),
      (isMember s e.issuer = true → e.membership = "IN" →
        ∃ err, (submitMembership O s e).1 = Except.error err ∧
          (submitMembership O s e).2 = s)
      ∧ (isMember s e.issuer = false → ¬e.membership = "IN" →
        ∃ err, (submitMembership O s e).1 = Except.error err ∧
          (submitMembership O s e).2 = s)
      ∧ (∀ r, isMember s e.issuer = false → e.membership = "IN" →
        (submitMembership O s e).1 = Except.ok r →
        ∃ pk, s.pubkeys.find? (fun p => p.fingerprint == e.issuer) = some pk ∧
          (pk.keychain = true ∨ O.hasValidUdid2 pk.raw = true))
      ∧ (∀ e0 rest, getForHashAndIssuer s e.hash e.issuer = e0 :: rest → e.date < e0.date →
        submitMembership O s e = (Except.error "Already received membership", s)) := by
  intro O s e
  have hrest1 : isMember s e.issuer = true → e.membership = "IN" →
      submitMembershipRest O s e = (Except.error "A member cannot join in.", s) := by
    intro hm hin
    unfold submitMembershipRest
    rw [hm, hin]
    simp
  have hrest2 : isMember s e.issuer = false → ¬e.membership = "IN" →
      submitMembershipRest O s e = (Except.error "A non-member cannot leave.", s) := by
    intro hm hin
    have hb : (e.membership == "IN") = false := by
      simpa using hin
    unfold submitMembershipRest
    rw [hm, hb]
    simp
  have hrest3 : ∀ r, isMember s e.issuer = false → e.membership = "IN" →
      (submitMembershipRest O s e).1 = Except.ok r →
      ∃ pk, s.pubkeys.find? (fun p => p.fingerprint == e.issuer) = some pk ∧
        (pk.keychain = true ∨ O.hasValidUdid2 pk.raw = true) := by
    intro r hm hin hok
    unfold submitMembershipRest hasEligiblePubkey at hok
    rw [hm, hin] at hok
    cases hf : s.pubkeys.find? (fun p => p.fingerprint == e.issuer) with
    | none =>
      rw [hf] at hok
      simp at hok
    | some pk =>
      rw [hf] at hok
      refine ⟨pk, rfl, ?_⟩
      by_cases hkc : pk.keychain = true
      · exact Or.inl hkc
      · by_cases hud : O.hasValidUdid2 pk.raw = true
        · exact Or.inr hud
        · exfalso
          rw [Bool.not_eq_true] at hkc hud
          simp only [hkc, hud] at hok
          simp at hok
  refine ⟨?_, ?_, ?_, ?_⟩
  · intro hm hin
    cases hg : getForHashAndIssuer s e.hash e.issuer with
    | nil =>
      have hs : submitMembership O s e = submitMembershipRest O s e := by
        simp only [submitMembership, hg]
      rw [hs, hrest1 hm hin]
      exact ⟨_, rfl, rfl⟩
    | cons e0 rest =>
      by_cases hd : e.date < e0.date
      · have hs : submitMembership O s e = (Except.error "Already received membership", s) := by
          simp only [submitMembership, hg, if_pos hd]
        rw [hs]
        exact ⟨_, rfl, rfl⟩
      · have hs : submitMembership O s e = submitMembershipRest O s e := by
          simp only [submitMembership, hg, if_neg hd]
        rw [hs, hrest1 hm hin]
        exact ⟨_, rfl, rfl⟩
  · intro hm hin
    cases hg : getForHashAndIssuer s e.hash e.issuer with
    | nil =>
      have hs : submitMembership O s e = submitMembershipRest O s e := by
        simp only [submitMembership, hg]
      rw [hs, hrest2 hm hin]
      exact ⟨_, rfl, rfl⟩
    | cons e0 rest =>
      by_cases hd : e.date < e0.date
      · have hs : submitMembership O s e = (Except.error "Already received membership", s) := by
          simp only [submitMembership, hg, if_pos hd]
        rw [hs]
        exact ⟨_, rfl, rfl⟩
      · have hs : submitMembership O s e = submitMembershipRest O s e := by
          simp only [submitMembership, hg, if_neg hd]
        rw [hs, hrest2 hm hin]
        exact ⟨_, rfl, rfl⟩
  · intro r hm hin hok
    cases hg : getForHashAndIssuer s e.hash e.issuer with
    | nil =>
      have hs : submitMembership O s e = submitMembershipRest O s e := by
        simp only [submitMembership, hg]
      rw [hs] at hok
      exact hrest3 r hm hin hok
    | cons e0 rest =>
      by_cases hd : e.date < e0.date
      · have hs : submitMembership O s e = (Except.error "Already received membership", s) := by
          simp only [submitMembership, hg, if_pos hd]
        rw [hs] at hok
        exact Except.noConfusion hok
      · have hs : submitMembership O s e = submitMembershipRest O s e := by
          simp only [submitMembership, hg, if_neg hd]
        rw [hs] at hok
        exact hrest3 r hm hin hok
  · intro e0 rest hg hd
    simp only [submitMembership, hg, if_pos hd]

/-- Witness for C10: the member M's join is rejected with the pool untouched,
and P's stale resubmission is rejected as already received. -/
theorem submitMembership_rules_witness :
    (∃ err, (submitMembership trivialOracle stateMS msJoinMember).1 = Except.error err ∧
      (submitMembership trivialOracle stateMS msJoinMember).2 = stateMS)
    ∧ submitMembership trivialOracle stateMS msStale =
        (Except.error "Already received membership", stateMS) :=
  ⟨(submitMembership_rules trivialOracle stateMS msJoinMember).1 (by decide) rfl,
   (submitMembership_rules trivialOracle stateMS msStale).2.2.2 poolEntry [] (by decide)
     (by decide)⟩

end Duniter
